import Mathlib

/-
Verification of the cron-job manager in `src/cron-jobs/index.ts` and
`src/cron-jobs/jobs.ts` (node-cron-best-practices).

The core is the retry-wrapped executor `executeJob` and the registration
entry point `registerAllCronJobs`.  We embed them shallowly:

* a task (`() => Promise<void>` that may throw) is modelled by its
  observable outcome per attempt number: `task : Nat → Bool`, where
  `task n = true` means the attempt numbered `n` completes without error
  and `task n = false` means it throws;
* each `console.log` / `console.error` call in `executeJob` becomes one
  `CronEvent`;
* the `setTimeout(() => executeJob({name, task, retries}, attempt + 1),
  10000)` call is modelled as data: the returned `StepResult` carries an
  optional `ScheduledRetry` (the delay, the parameter record that is
  rebuilt from the destructured fields, and the next attempt number).
  The caller of `executeJob` never sees the retry's own events — the
  fire-and-forget semantics;
* the JavaScript truthiness guard `retries && attempt < retries` is
  modelled over `Option Int`: `undefined` is `none` (falsy), `0` is
  falsy, every other integer is truthy.
-/

namespace CronJobs

/-- The `JobExecutionParams` record of `src/cron-jobs/index.ts`:
`{ name: string; task: () => Promise<void>; retries?: number }`.
The task is represented by its outcome at each attempt number. -/
structure JobExecutionParams where
  name : String
  task : Nat → Bool
  retries : Option Int

/-- One `CronEvent` per `console.log` / `console.error` call in
`executeJob`:
`start` = "[Cron] Executing job: NAME, Attempt: A",
`success` = "[Cron] Job \"NAME\" executed successfully.",
`failure` = "[Cron] Job \"NAME\" failed on attempt A:",
`retrying` = "[Cron] Retrying job \"NAME\" in 10 seconds...",
`finalFailure` = "[Cron] Job \"NAME\" failed after A attempts. Skipping." -/
inductive CronEvent where
  | start (name : String) (attempt : Nat)
  | success (name : String)
  | failure (name : String) (attempt : Nat)
  | retrying (name : String)
  | finalFailure (name : String) (attempt : Nat)
  deriving DecidableEq

/-- The retry that `setTimeout(() => executeJob({ name, task, retries },
attempt + 1), 10000)` registers: the delay in milliseconds, the parameter
record passed to the re-invocation, and the re-invocation's attempt. -/
structure ScheduledRetry where
  delayMs : Nat
  params : JobExecutionParams
  attempt : Nat

/-- What one invocation of `executeJob` produces: the log lines it emits
itself, and the retry it registers with `setTimeout`, if any.  The
scheduled retry is fire-and-forget: its own events are not part of
`events`. -/
structure StepResult where
  events : List CronEvent
  scheduled : Option ScheduledRetry

/-- The guard `retries && attempt < retries` of `executeJob`
(`src/cron-jobs/index.ts` line 42): `retries` is truthy iff it is present
and nonzero, and then the numeric comparison `attempt < retries` decides. -/
def shouldRetry (retries : Option Int) (attempt : Nat) : Bool :=
  match retries with
  | none => false
  | some r => r != 0 && (attempt : Int) < r

/-- Shallow embedding of `executeJob` (`src/cron-jobs/index.ts` lines
31-52).  It logs the start line, runs the task; on success it logs the
success line; on error it logs the per-attempt failure, then either logs
the retrying line and registers the delayed re-invocation
`executeJob({ name, task, retries }, attempt + 1)` after 10000 ms, or
logs the final-failure line. -/
def executeJob (p : JobExecutionParams) (attempt : Nat) : StepResult :=
  if p.task attempt then
    { events := [.start p.name attempt, .success p.name], scheduled := none }
  else if shouldRetry p.retries attempt then
    { events := [.start p.name attempt, .failure p.name attempt, .retrying p.name],
      scheduled := some ⟨10000, ⟨p.name, p.task, p.retries⟩, attempt + 1⟩ }
  else
    { events := [.start p.name attempt, .failure p.name attempt,
        .finalFailure p.name attempt],
      scheduled := none }

/-- Any retry registered by `executeJob` re-invokes it with the very same
`{ name, task, retries }` record, with `attempt + 1`, after exactly
10000 ms, and only when the guard `retries && attempt < retries` held. -/
theorem executeJob_scheduled_eq (p : JobExecutionParams) (attempt : Nat)
    (s : ScheduledRetry) (h : (executeJob p attempt).scheduled = some s) :
    s = ⟨10000, p, attempt + 1⟩ ∧ shouldRetry p.retries attempt = true := by
  unfold executeJob at h
  split at h
  · simp at h
  · split at h
    · next hr =>
      refine ⟨?_, hr⟩
      have := (Option.some_inj.mp h).symm
      simpa using this
    · simp at h

/-- The guard can only hold when the budget strictly exceeds the current
attempt, so this measure drops at each scheduled retry. -/
def chainMeasure (retries : Option Int) (attempt : Nat) : Nat :=
  match retries with
  | none => 0
  | some r => r.toNat - attempt

theorem chainMeasure_decreases (retries : Option Int) (attempt : Nat)
    (h : shouldRetry retries attempt = true) :
    chainMeasure retries (attempt + 1) < chainMeasure retries attempt := by
  cases retries with
  | none => simp [shouldRetry] at h
  | some r =>
    simp only [shouldRetry, Bool.and_eq_true, bne_iff_ne, decide_eq_true_eq] at h
    have hlt : (attempt : Int) < r := h.2
    have hr : attempt < r.toNat := by
      omega
    simp only [chainMeasure]
    omega

/-- One element of a retry chain: the (model) time at which this
invocation of `executeJob` runs, the parameter record it receives, its
attempt number, and the events it logs. -/
structure Invocation where
  time : Nat
  params : JobExecutionParams
  attempt : Nat
  events : List CronEvent

/-- The whole retry chain started by one invocation of `executeJob`:
run the step, and if it registered a delayed retry, follow it (at the
scheduled parameters and attempt, after the scheduled delay).  Tasks are
treated as instantaneous, so each retry runs `delayMs` after the prior
attempt's failure. -/
def runChain (p : JobExecutionParams) (attempt : Nat) (time : Nat) :
    List Invocation :=
  match h : (executeJob p attempt).scheduled with
  | none => [⟨time, p, attempt, (executeJob p attempt).events⟩]
  | some s =>
    ⟨time, p, attempt, (executeJob p attempt).events⟩ ::
      runChain s.params s.attempt (time + s.delayMs)
termination_by chainMeasure p.retries attempt
decreasing_by
  obtain ⟨hs, hg⟩ := executeJob_scheduled_eq p attempt s h
  subst hs
  exact chainMeasure_decreases p.retries attempt hg

/-- Unfolding `runChain` when the step registers no retry. -/
theorem runChain_stop (p : JobExecutionParams) (a t : Nat)
    (h : (executeJob p a).scheduled = none) :
    runChain p a t = [⟨t, p, a, (executeJob p a).events⟩] := by
  rw [runChain]
  split
  · rfl
  · next s hs => rw [h] at hs; exact absurd hs (by simp)

/-- Unfolding `runChain` when the step registers a retry: the chain
continues at the same parameter record, attempt + 1, 10000 ms later. -/
theorem runChain_step (p : JobExecutionParams) (a t : Nat)
    (s : ScheduledRetry) (h : (executeJob p a).scheduled = some s) :
    runChain p a t =
      ⟨t, p, a, (executeJob p a).events⟩ :: runChain p (a + 1) (t + 10000) := by
  obtain ⟨hs, _⟩ := executeJob_scheduled_eq p a s h
  subst hs
  rw [runChain]
  split
  · next hn => rw [h] at hn; exact absurd hn (by simp)
  · next s' hs' =>
    rw [h] at hs'
    have : s' = (⟨10000, p, a + 1⟩ : ScheduledRetry) := by
      exact (Option.some_inj.mp hs').symm
    subst this
    rfl

/-- On a successful attempt `executeJob` logs the start and success lines
and registers nothing. -/
theorem executeJob_success (p : JobExecutionParams) (a : Nat)
    (h : p.task a = true) :
    executeJob p a =
      { events := [.start p.name a, .success p.name], scheduled := none } := by
  simp [executeJob, h]

/-- On a failed attempt with the retry guard true, `executeJob` logs
start, failure and retrying lines and registers the delayed retry. -/
theorem executeJob_fail_retry (p : JobExecutionParams) (a : Nat)
    (h : p.task a = false) (hg : shouldRetry p.retries a = true) :
    executeJob p a =
      { events := [.start p.name a, .failure p.name a, .retrying p.name],
        scheduled := some ⟨10000, p, a + 1⟩ } := by
  simp [executeJob, h, hg]

/-- On a failed attempt with the retry guard false, `executeJob` logs
start, failure and final-failure lines and registers nothing. -/
theorem executeJob_fail_final (p : JobExecutionParams) (a : Nat)
    (h : p.task a = false) (hg : shouldRetry p.retries a = false) :
    executeJob p a =
      { events := [.start p.name a, .failure p.name a, .finalFailure p.name a],
        scheduled := none } := by
  simp [executeJob, h, hg]

/-- The invocation record of one failed-and-retried attempt. -/
def failInv (p : JobExecutionParams) (a t : Nat) : Invocation :=
  ⟨t, p, a, [.start p.name a, .failure p.name a, .retrying p.name]⟩

/-- `m` consecutive failed-and-retried attempts starting at attempt `a`
and time `t`, each 10000 ms after the previous one. -/
def failSegment (p : JobExecutionParams) : Nat → Nat → Nat → List Invocation
  | 0, _, _ => []
  | m + 1, a, t => failInv p a t :: failSegment p m (a + 1) (t + 10000)

theorem failSegment_length (p : JobExecutionParams) (m : Nat) :
    ∀ a t, (failSegment p m a t).length = m := by
  induction m with
  | zero => intro a t; rfl
  | succ m ih => intro a t; simp [failSegment, ih]

theorem failSegment_getElem (p : JobExecutionParams) (m : Nat) :
    ∀ a t i, (hi : i < (failSegment p m a t).length) →
      (failSegment p m a t)[i] = failInv p (a + i) (t + i * 10000) := by
  induction m with
  | zero => intro a t i hi; simp [failSegment] at hi
  | succ m ih =>
    intro a t i hi
    cases i with
    | zero => simp [failSegment]
    | succ i =>
      have hi' : i < (failSegment p m (a + 1) (t + 10000)).length := by
        simpa [failSegment] using hi
      have := ih (a + 1) (t + 10000) i hi'
      simp only [failSegment, List.getElem_cons_succ, this, failInv]
      congr 1 <;> ring

/-- If the task fails at every one of the attempts `a, …, a + m - 1` and
the retry guard holds at each, the chain runs through exactly those `m`
failed attempts, spaced 10000 ms apart, and continues at attempt `a + m`,
time `t + m * 10000`. -/
theorem runChain_fail_segment (p : JobExecutionParams) (m : Nat) :
    ∀ a t, (∀ j, a ≤ j → j < a + m → p.task j = false) →
      (∀ j, a ≤ j → j < a + m → shouldRetry p.retries j = true) →
      runChain p a t =
        failSegment p m a t ++ runChain p (a + m) (t + m * 10000) := by
  induction m with
  | zero => intro a t _ _; simp [failSegment]
  | succ m ih =>
    intro a t hf hg
    have hfa : p.task a = false := hf a le_rfl (by omega)
    have hga : shouldRetry p.retries a = true := hg a le_rfl (by omega)
    have hstep := executeJob_fail_retry p a hfa hga
    have h1 : runChain p a t =
        ⟨t, p, a, (executeJob p a).events⟩ :: runChain p (a + 1) (t + 10000) :=
      runChain_step p a t ⟨10000, p, a + 1⟩ (by rw [hstep])
    rw [h1, ih (a + 1) (t + 10000)
      (fun j h1 h2 => hf j (by omega) (by omega))
      (fun j h1 h2 => hg j (by omega) (by omega))]
    simp only [failSegment, hstep, failInv, List.cons_append]
    congr 3 <;> ring

/-- Every invocation in a retry chain receives the original parameter
record unchanged. -/
theorem runChain_params_eq (p : JobExecutionParams) (a t : Nat) :
    ∀ inv ∈ runChain p a t, inv.params = p := by
  induction p, a, t using runChain.induct with
  | case1 p a t h =>
    intro inv hinv
    rw [runChain_stop p a t h] at hinv
    simp only [List.mem_singleton] at hinv
    rw [hinv]
  | case2 p a t s h ih =>
    obtain ⟨hs, _⟩ := executeJob_scheduled_eq p a s h
    subst hs
    intro inv hinv
    rw [runChain_step p a t _ h] at hinv
    rcases List.mem_cons.mp hinv with h1 | h1
    · rw [h1]
    · exact ih inv h1

/-- The attempt numbers along a retry chain are consecutive, starting at
the initial attempt: each re-invocation increases the counter by 1. -/
theorem runChain_attempts (p : JobExecutionParams) (a t : Nat) :
    (runChain p a t).map Invocation.attempt =
      List.range' a (runChain p a t).length := by
  induction p, a, t using runChain.induct with
  | case1 p a t h =>
    rw [runChain_stop p a t h]
    rfl
  | case2 p a t s h ih =>
    obtain ⟨hs, _⟩ := executeJob_scheduled_eq p a s h
    subst hs
    rw [runChain_step p a t _ h]
    simp only [List.map_cons, List.length_cons, List.range'_succ]
    rw [ih]

/-- A retry chain always contains at least its initial invocation. -/
theorem runChain_ne_nil (p : JobExecutionParams) (a t : Nat) :
    runChain p a t ≠ [] := by
  cases h : (executeJob p a).scheduled with
  | none => rw [runChain_stop p a t h]; simp
  | some s =>
    obtain ⟨hs, _⟩ := executeJob_scheduled_eq p a s h
    subst hs
    rw [runChain_step p a t _ h]
    simp

/-- C4: for every task that completes without error on the first attempt,
the executor logs exactly one start message and exactly one success
message, and schedules no retry. -/
theorem claim_C4 (p : JobExecutionParams) (t : Nat) (h : p.task 1 = true) :
    runChain p 1 t = [⟨t, p, 1, [.start p.name 1, .success p.name]⟩] ∧
    ((executeJob p 1).events.count (.start p.name 1) = 1 ∧
      (executeJob p 1).events.count (.success p.name) = 1) ∧
    (executeJob p 1).scheduled = none := by
  have hstep := executeJob_success p 1 h
  refine ⟨?_, ⟨?_, ?_⟩, by rw [hstep]⟩
  · rw [runChain_stop p 1 t (by rw [hstep]), hstep]
  · rw [hstep]; simp [List.count_cons]
  · rw [hstep]; simp [List.count_cons]

/-- C2: for every failing task, if `retries` is unset, `0`, or `1`, the
executor starting at attempt 1 attempts the task exactly once (logging
start, failure and final-failure) and schedules no retry; in particular
all three `retries` values yield the same singleton chain. -/
theorem claim_C2 (p : JobExecutionParams) (t : Nat) (hf : p.task 1 = false)
    (hr : p.retries = none ∨ p.retries = some 0 ∨ p.retries = some 1) :
    runChain p 1 t =
      [⟨t, p, 1, [.start p.name 1, .failure p.name 1, .finalFailure p.name 1]⟩] ∧
    (executeJob p 1).scheduled = none := by
  have hg : shouldRetry p.retries 1 = false := by
    rcases hr with h | h | h <;> rw [h] <;> decide
  have hstep := executeJob_fail_final p 1 hf hg
  refine ⟨?_, by rw [hstep]⟩
  rw [runChain_stop p 1 t (by rw [hstep]), hstep]

/-- C3: for every invocation where the task fails, a retry is scheduled
iff `retries` is truthy (present and nonzero) and `attempt < retries`;
the scheduled retry re-invokes the executor with the same parameter
record at `attempt + 1` after exactly 10000 ms, and the invocation's own
log output ends at the retrying line — the retry's outcome is not part of
it (fire-and-forget). -/
theorem claim_C3 (p : JobExecutionParams) (a : Nat) (hf : p.task a = false) :
    ((∃ s, (executeJob p a).scheduled = some s) ↔
      (∃ r, p.retries = some r ∧ r ≠ 0 ∧ (a : Int) < r)) ∧
    (∀ s, (executeJob p a).scheduled = some s →
      s.delayMs = 10000 ∧ s.params = p ∧ s.attempt = a + 1 ∧
      (executeJob p a).events =
        [.start p.name a, .failure p.name a, .retrying p.name]) := by
  constructor
  · constructor
    · rintro ⟨s, hs⟩
      have hg := (executeJob_scheduled_eq p a s hs).2
      cases hretry : p.retries with
      | none => rw [hretry] at hg; simp [shouldRetry] at hg
      | some r =>
        rw [hretry] at hg
        simp only [shouldRetry, Bool.and_eq_true, bne_iff_ne, decide_eq_true_eq] at hg
        exact ⟨r, rfl, hg.1, hg.2⟩
    · rintro ⟨r, hr, hr0, hra⟩
      have hg : shouldRetry p.retries a = true := by
        rw [hr]
        simp only [shouldRetry, Bool.and_eq_true, bne_iff_ne, decide_eq_true_eq]
        exact ⟨hr0, hra⟩
      exact ⟨_, by rw [executeJob_fail_retry p a hf hg]⟩
  · intro s hs
    obtain ⟨h1, hg⟩ := executeJob_scheduled_eq p a s hs
    subst h1
    exact ⟨rfl, rfl, rfl, by rw [executeJob_fail_retry p a hf hg]⟩

/-- C6: the executor never propagates a task error; in the terminal case
(`retries` unset, or `attempt >= retries`) it logs exactly the start,
per-attempt failure and final-failure lines and terminates without
scheduling anything. -/
theorem claim_C6 (p : JobExecutionParams) (a : Nat) (hf : p.task a = false)
    (hterm : p.retries = none ∨ ∃ r, p.retries = some r ∧ r ≤ (a : Int)) :
    (executeJob p a).events =
      [.start p.name a, .failure p.name a, .finalFailure p.name a] ∧
    (executeJob p a).scheduled = none := by
  have hg : shouldRetry p.retries a = false := by
    rcases hterm with h | ⟨r, hr, hra⟩
    · rw [h]; rfl
    · rw [hr]
      simp only [shouldRetry, Bool.and_eq_false_iff]
      right
      simpa using not_lt.mpr hra
  rw [executeJob_fail_final p a hf hg]
  exact ⟨rfl, rfl⟩

/-- C9: across every retry re-invocation in a chain, `name`, `task` and
`retries` are unchanged from the original invocation and the attempt
counter increases by exactly 1 per re-invocation (the chain's attempt
numbers are consecutive from the initial one). -/
theorem claim_C9 (p : JobExecutionParams) (a t : Nat) :
    (∀ s, (executeJob p a).scheduled = some s →
      s.params.name = p.name ∧ s.params.task = p.task ∧
      s.params.retries = p.retries ∧ s.attempt = a + 1) ∧
    (∀ inv ∈ runChain p a t, inv.params = p) ∧
    (runChain p a t).map Invocation.attempt =
      List.range' a (runChain p a t).length := by
  refine ⟨?_, runChain_params_eq p a t, runChain_attempts p a t⟩
  intro s hs
  obtain ⟨h1, _⟩ := executeJob_scheduled_eq p a s hs
  subst h1
  exact ⟨rfl, rfl, rfl, rfl⟩

/-- C10: for every negative `retries` value (e.g. `-1`), a failing task
starting at attempt 1 is attempted exactly once and no retry is
scheduled: the truthiness guard passes (`r ≠ 0`) but `attempt < retries`
fails, so the executor takes the final-failure branch exactly as for
`retries = 0`. -/
theorem claim_C10 (p : JobExecutionParams) (t : Nat) (r : Int)
    (hr : p.retries = some r) (hneg : r < 0) (hf : p.task 1 = false) :
    runChain p 1 t =
      [⟨t, p, 1, [.start p.name 1, .failure p.name 1, .finalFailure p.name 1]⟩] ∧
    (executeJob p 1).scheduled = none ∧
    r ≠ 0 ∧ ¬((1 : Int) < r) := by
  have hg : shouldRetry p.retries 1 = false := by
    rw [hr]
    simp only [shouldRetry, Bool.and_eq_false_iff]
    right
    simpa using by omega
  have hstep := executeJob_fail_final p 1 hf hg
  exact ⟨by rw [runChain_stop p 1 t (by rw [hstep]), hstep], by rw [hstep],
    by omega, by omega⟩

/-- The log lines of a whole retry chain, in order. -/
def chainEvents (l : List Invocation) : List CronEvent :=
  (l.map Invocation.events).flatten

/-- The invocation times along a failing segment are spaced exactly
10000 ms apart. -/
theorem failSegment_map_time (p : JobExecutionParams) (m : Nat) (a t : Nat) :
    (failSegment p m a t).map Invocation.time =
      (List.range m).map (fun i => t + i * 10000) := by
  apply List.ext_getElem
  · simp [failSegment_length]
  · intro i h1 h2
    have hi : i < (failSegment p m a t).length := by
      simpa using h1
    simp [failSegment_getElem p m a t i hi, failInv]

/-- A failing segment never logs a success line. -/
theorem failSegment_count_success (p : JobExecutionParams) (m : Nat) :
    ∀ a t, (chainEvents (failSegment p m a t)).count (.success p.name) = 0 := by
  induction m with
  | zero => intro a t; rfl
  | succ m ih =>
    intro a t
    simp only [failSegment, chainEvents, List.map_cons, List.flatten_cons, failInv]
    rw [List.count_append]
    rw [show ((failSegment p m (a + 1) (t + 10000)).map Invocation.events).flatten
      = chainEvents (failSegment p m (a + 1) (t + 10000)) from rfl, ih]
    simp [List.count_cons]

/-- C1: for every task that fails on every attempt, run with
`retries = R`, `R ≥ 2`, starting at attempt 1: the executor performs
exactly `R` attempts — `R - 1` failed attempts that each schedule a retry
10000 ms after the prior attempt's failure, and then a final attempt that
logs the final-failure line — and the final attempt schedules no further
retry. -/
theorem claim_C1 (p : JobExecutionParams) (t : Nat) (R : Nat)
    (hf : ∀ n, p.task n = false) (hr : p.retries = some (R : Int))
    (hR : 2 ≤ R) :
    runChain p 1 t =
      failSegment p (R - 1) 1 t ++
        [⟨t + (R - 1) * 10000, p, R,
          [.start p.name R, .failure p.name R, .finalFailure p.name R]⟩] ∧
    (runChain p 1 t).length = R ∧
    (failSegment p (R - 1) 1 t).length = R - 1 ∧
    (runChain p 1 t).map Invocation.time =
      (List.range R).map (fun i => t + i * 10000) ∧
    (executeJob p R).scheduled = none := by
  have hg : ∀ j, 1 ≤ j → j < 1 + (R - 1) → shouldRetry p.retries j = true := by
    intro j h1 h2
    rw [hr]
    simp only [shouldRetry, Bool.and_eq_true, bne_iff_ne, decide_eq_true_eq]
    constructor
    · simp only [ne_eq, Int.natCast_eq_zero]; omega
    · exact_mod_cast by omega
  have hgR : shouldRetry p.retries R = false := by
    rw [hr]
    simp only [shouldRetry, Bool.and_eq_false_iff]
    right
    simp
  have hlast := executeJob_fail_final p R (hf R) hgR
  have htail : runChain p R (t + (R - 1) * 10000) =
      [⟨t + (R - 1) * 10000, p, R,
        [.start p.name R, .failure p.name R, .finalFailure p.name R]⟩] := by
    rw [runChain_stop p R _ (by rw [hlast]), hlast]
  have hmain : runChain p 1 t =
      failSegment p (R - 1) 1 t ++
        [⟨t + (R - 1) * 10000, p, R,
          [.start p.name R, .failure p.name R, .finalFailure p.name R]⟩] := by
    have h := runChain_fail_segment p (R - 1) 1 t
      (fun j _ _ => hf j) hg
    rw [show 1 + (R - 1) = R by omega] at h
    rw [h, htail]
  refine ⟨hmain, ?_, failSegment_length p (R - 1) 1 t, ?_, by rw [hlast]⟩
  · rw [hmain]
    simp [failSegment_length]
    omega
  · rw [hmain, List.map_append, failSegment_map_time]
    have : R = (R - 1) + 1 := by omega
    rw [this, List.range_succ]
    simp

/-- C5: for every task that fails on attempts `1 … k` and succeeds on
attempt `k + 1`, with `retries = R` and `k + 1 ≤ R`: the executor
performs exactly `k + 1` attempts, logs exactly one success line over the
whole chain, and schedules no further retry after the success. -/
theorem claim_C5 (p : JobExecutionParams) (t : Nat) (k R : Nat)
    (hf : ∀ n, 1 ≤ n → n ≤ k → p.task n = false)
    (hsucc : p.task (k + 1) = true) (hr : p.retries = some (R : Int))
    (hR : k + 1 ≤ R) :
    runChain p 1 t =
      failSegment p k 1 t ++
        [⟨t + k * 10000, p, k + 1,
          [.start p.name (k + 1), .success p.name]⟩] ∧
    (runChain p 1 t).length = k + 1 ∧
    (chainEvents (runChain p 1 t)).count (.success p.name) = 1 ∧
    (executeJob p (k + 1)).scheduled = none := by
  have hg : ∀ j, 1 ≤ j → j < 1 + k → shouldRetry p.retries j = true := by
    intro j h1 h2
    rw [hr]
    simp only [shouldRetry, Bool.and_eq_true, bne_iff_ne, decide_eq_true_eq]
    constructor
    · simp only [ne_eq, Int.natCast_eq_zero]; omega
    · exact_mod_cast by omega
  have hlast := executeJob_success p (k + 1) hsucc
  have htail : runChain p (1 + k) (t + k * 10000) =
      [⟨t + k * 10000, p, k + 1,
        [.start p.name (k + 1), .success p.name]⟩] := by
    rw [show 1 + k = k + 1 by omega]
    rw [runChain_stop p (k + 1) _ (by rw [hlast]), hlast]
  have hmain : runChain p 1 t =
      failSegment p k 1 t ++
        [⟨t + k * 10000, p, k + 1,
          [.start p.name (k + 1), .success p.name]⟩] := by
    have h := runChain_fail_segment p k 1 t
      (fun j h1 h2 => hf j h1 (by omega)) hg
    rw [h, htail]
  refine ⟨hmain, ?_, ?_, by rw [hlast]⟩
  · rw [hmain]
    simp [failSegment_length]
  · rw [hmain]
    simp only [chainEvents, List.map_append, List.flatten_append]
    rw [List.count_append,
      show ((failSegment p k 1 t).map Invocation.events).flatten
        = chainEvents (failSegment p k 1 t) from rfl,
      failSegment_count_success]
    simp [List.count_cons]

/-- The `JobParams` record of `src/cron-jobs/index.ts` (the shape of the
entries of `src/cron-jobs/jobs.ts`): `{ name, slug, schedule, task,
retries? }`. -/
structure JobParams where
  name : String
  slug : String
  schedule : String
  task : Nat → Bool
  retries : Option Int

/-- One entry of node-cron's internal registry after a
`cron.schedule(schedule, callback)` call made by `registerAllCronJobs`:
the cron expression and the data the callback closure captures — the
`{ name, task, retries }` record it passes to `executeJob`. -/
structure Registration where
  schedule : String
  job : JobExecutionParams

/-- Model of `cron.schedule`: appends one registration to node-cron's
internal registry. -/
def cronSchedule (st : List Registration) (sched : String)
    (job : JobExecutionParams) : List Registration :=
  st ++ [⟨sched, job⟩]

/-- Firing one registered trigger once runs the registered callback
`async () => { await executeJob({ name, task, retries }) }`, i.e. one
invocation of the retry-wrapped executor at the default attempt 1. -/
def fireRegistration (r : Registration) : StepResult :=
  executeJob r.job 1

/-- The registration record built from one descriptor: bind its
`schedule` to a callback that invokes `executeJob` with that
descriptor's `name`, `task` and `retries`. -/
def toRegistration (j : JobParams) : Registration :=
  ⟨j.schedule, ⟨j.name, j.task, j.retries⟩⟩

/-- The log line `console.log` emits for one scheduled job:
`[Cron] Scheduled job: "NAME" (SCHEDULE)`. -/
def scheduledLog (j : JobParams) : String :=
  "[Cron] Scheduled job: \"" ++ j.name ++ "\" (" ++ j.schedule ++ ")"

/-- The body of the `jobs.forEach` loop in `registerAllCronJobs`:
`cron.schedule(schedule, async () => { await executeJob({name, task,
retries}) })` followed by the `console.log` line. -/
def registerStep (acc : List Registration × List String) (j : JobParams) :
    List Registration × List String :=
  (cronSchedule acc.1 j.schedule ⟨j.name, j.task, j.retries⟩,
    acc.2 ++ [scheduledLog j])

/-- Shallow embedding of `registerAllCronJobs` (`src/cron-jobs/index.ts`
lines 58-65): iterate the registry in order, registering each descriptor
with the scheduling primitive and logging one line per job.  The first
component is node-cron's registry state (before: `st`; the TS function
itself returns `undefined`), the second the log lines emitted by this
call. -/
def registerAllCronJobs (jobs : List JobParams) (st : List Registration) :
    List Registration × List String :=
  jobs.foldl registerStep (st, [])

theorem registerFold (jobs : List JobParams) :
    ∀ (st : List Registration) (ls : List String),
      jobs.foldl registerStep (st, ls) =
        (st ++ jobs.map toRegistration, ls ++ jobs.map scheduledLog) := by
  induction jobs with
  | nil => intro st ls; simp
  | cons j jobs ih =>
    intro st ls
    simp only [List.foldl_cons, List.map_cons]
    rw [show registerStep (st, ls) j
      = (st ++ [toRegistration j], ls ++ [scheduledLog j]) from rfl, ih]
    simp

/-- One call to `registerAllCronJobs` appends exactly one registration
per descriptor, in registry order, and emits exactly one log line per
descriptor. -/
theorem registerAllCronJobs_eq (jobs : List JobParams)
    (st : List Registration) :
    registerAllCronJobs jobs st =
      (st ++ jobs.map toRegistration, jobs.map scheduledLog) := by
  unfold registerAllCronJobs
  rw [registerFold]
  simp

/-- C7: one call to the registration entry point binds each descriptor of
the registry to the scheduling primitive exactly once, in registry order;
firing any descriptor's trigger invokes the retry-wrapped executor with
exactly that descriptor's `name`, `task` and `retries` (at the default
attempt 1); and the call emits exactly one log line per job. -/
theorem claim_C7 (jobs : List JobParams) :
    (registerAllCronJobs jobs []).1 = jobs.map toRegistration ∧
    (registerAllCronJobs jobs []).1.length = jobs.length ∧
    (∀ j : JobParams, fireRegistration (toRegistration j) =
      executeJob ⟨j.name, j.task, j.retries⟩ 1) ∧
    (registerAllCronJobs jobs []).2 = jobs.map scheduledLog ∧
    (registerAllCronJobs jobs []).2.length = jobs.length := by
  rw [registerAllCronJobs_eq]
  exact ⟨by simp, by simp, fun j => rfl, rfl, by simp⟩

/-- C8: the registration entry point is not idempotent — a second call
with the same registry appends a second copy of every registration, so
for every way of selecting the registrations a tick fires (any predicate,
e.g. "schedule matches this tick"), twice-registered state fires twice as
many callbacks as once-registered state. -/
theorem claim_C8 (jobs : List JobParams) :
    (registerAllCronJobs jobs ((registerAllCronJobs jobs []).1)).1 =
      (registerAllCronJobs jobs []).1 ++ (registerAllCronJobs jobs []).1 ∧
    ∀ pred : Registration → Bool,
      ((registerAllCronJobs jobs ((registerAllCronJobs jobs []).1)).1.countP
          pred) =
        2 * ((registerAllCronJobs jobs []).1.countP pred) := by
  have h1 := registerAllCronJobs_eq jobs (jobs.map toRegistration)
  have key : (registerAllCronJobs jobs []).1 = jobs.map toRegistration := by
    rw [registerAllCronJobs_eq]
    simp
  constructor
  · rw [key, h1]
  · intro pred
    rw [key, h1]
    simp only [List.countP_append]
    omega

/-- The static registry of `src/cron-jobs/jobs.ts`, in file order.  Each
task body only logs and completes without error (nothing in any body
throws, and each catch clause only rethrows), so every task's outcome is
success at every attempt. -/
def cronJobsRegistry : List JobParams :=
  [⟨"Process Pending Payments", "process-pending-payments", "0 1 * * *",
      fun _ => true, some 3⟩,
    ⟨"Expire Inactive Subscriptions", "expire-inactive-subscriptions",
      "0 2 * * *", fun _ => true, none⟩,
    ⟨"Assign Support Agents to New Cases", "assign-support-agents",
      "0 0,6,12,18 * * *", fun _ => true, some 2⟩,
    ⟨"Generate Daily Reports", "generate-daily-reports", "30 3 * * *",
      fun _ => true, none⟩,
    ⟨"Update User Status", "update-user-status", "30 0,12 * * *",
      fun _ => true, some 3⟩,
    ⟨"Sync External Data Sources", "sync-external-data", "0 4 * * *",
      fun _ => true, none⟩,
    ⟨"Clear Old Logs and Cache", "clear-old-logs", "0 5 * * *",
      fun _ => true, none⟩]

/-- Witness for C1: a job failing at every attempt with `retries = 3` is
attempted exactly 3 times. -/
theorem claim_C1_witness :
    (∀ n, (⟨"A", fun _ => false, some 3⟩ : JobExecutionParams).task n = false) ∧
    (⟨"A", fun _ => false, some 3⟩ : JobExecutionParams).retries =
      some ((3 : Nat) : Int) ∧
    2 ≤ 3 ∧
    (runChain (⟨"A", fun _ => false, some 3⟩ : JobExecutionParams) 1 0).length
      = 3 :=
  ⟨fun _ => rfl, rfl, by decide,
    (claim_C1 (⟨"A", fun _ => false, some 3⟩ : JobExecutionParams) 0 3
      (fun _ => rfl) rfl (by decide)).2.1⟩

/-- Witness for C2: a failing job with `retries = 1` schedules no
retry. -/
theorem claim_C2_witness :
    (⟨"B", fun _ => false, some 1⟩ : JobExecutionParams).task 1 = false ∧
    ((⟨"B", fun _ => false, some 1⟩ : JobExecutionParams).retries = none ∨
      (⟨"B", fun _ => false, some 1⟩ : JobExecutionParams).retries = some 0 ∨
      (⟨"B", fun _ => false, some 1⟩ : JobExecutionParams).retries = some 1) ∧
    (executeJob (⟨"B", fun _ => false, some 1⟩ : JobExecutionParams) 1).scheduled
      = none :=
  ⟨rfl, Or.inr (Or.inr rfl),
    (claim_C2 (⟨"B", fun _ => false, some 1⟩ : JobExecutionParams) 0 rfl
      (Or.inr (Or.inr rfl))).2⟩

/-- Witness for C3: the retry-scheduling equivalence at a failing job with
`retries = 2`, attempt 1. -/
theorem claim_C3_witness :
    (⟨"C", fun _ => false, some 2⟩ : JobExecutionParams).task 1 = false ∧
    ((∃ s, (executeJob (⟨"C", fun _ => false, some 2⟩ : JobExecutionParams)
        1).scheduled = some s) ↔
      (∃ r, (⟨"C", fun _ => false, some 2⟩ : JobExecutionParams).retries
          = some r ∧ r ≠ 0 ∧ ((1 : Nat) : Int) < r)) :=
  ⟨rfl, (claim_C3 (⟨"C", fun _ => false, some 2⟩ : JobExecutionParams) 1 rfl).1⟩

/-- Witness for C4: a job succeeding at its first attempt schedules no
retry. -/
theorem claim_C4_witness :
    (⟨"D", fun _ => true, none⟩ : JobExecutionParams).task 1 = true ∧
    (executeJob (⟨"D", fun _ => true, none⟩ : JobExecutionParams) 1).scheduled
      = none :=
  ⟨rfl, (claim_C4 (⟨"D", fun _ => true, none⟩ : JobExecutionParams) 0 rfl).2.2⟩

/-- Witness for C5: a job failing at attempt 1 and succeeding at attempt 2
with `retries = 3` runs exactly 2 attempts. -/
theorem claim_C5_witness :
    (∀ n, 1 ≤ n → n ≤ 1 →
      (⟨"E", fun n => decide (n = 2), some 3⟩ : JobExecutionParams).task n
        = false) ∧
    (⟨"E", fun n => decide (n = 2), some 3⟩ : JobExecutionParams).task 2
      = true ∧
    (⟨"E", fun n => decide (n = 2), some 3⟩ : JobExecutionParams).retries
      = some ((3 : Nat) : Int) ∧
    1 + 1 ≤ 3 ∧
    (runChain (⟨"E", fun n => decide (n = 2), some 3⟩ : JobExecutionParams)
      1 0).length = 1 + 1 := by
  have hfp : ∀ n, 1 ≤ n → n ≤ 1 →
      (⟨"E", fun n => decide (n = 2), some 3⟩ : JobExecutionParams).task n
        = false := by
    intro n h1 h2
    have hn : n = 1 := by omega
    subst hn
    rfl
  exact ⟨hfp, rfl, rfl, by decide,
    (claim_C5 (⟨"E", fun n => decide (n = 2), some 3⟩ : JobExecutionParams)
      0 1 3 hfp rfl rfl (by decide)).2.1⟩

/-- Witness for C6: a failing job with `retries = 2` at attempt 5 is in
the terminal case and schedules nothing. -/
theorem claim_C6_witness :
    (⟨"F", fun _ => false, some 2⟩ : JobExecutionParams).task 5 = false ∧
    ((⟨"F", fun _ => false, some 2⟩ : JobExecutionParams).retries = none ∨
      ∃ r, (⟨"F", fun _ => false, some 2⟩ : JobExecutionParams).retries
          = some r ∧ r ≤ ((5 : Nat) : Int)) ∧
    (executeJob (⟨"F", fun _ => false, some 2⟩ : JobExecutionParams)
      5).scheduled = none :=
  ⟨rfl, Or.inr ⟨2, rfl, by decide⟩,
    (claim_C6 (⟨"F", fun _ => false, some 2⟩ : JobExecutionParams) 5 rfl
      (Or.inr ⟨2, rfl, by decide⟩)).2⟩

/-- Witness for C9: the attempt numbers of a concrete retry chain are
consecutive from 1. -/
theorem claim_C9_witness :
    (runChain (⟨"G", fun _ => false, some 2⟩ : JobExecutionParams) 1 0).map
        Invocation.attempt =
      List.range' 1
        (runChain (⟨"G", fun _ => false, some 2⟩ : JobExecutionParams)
          1 0).length :=
  (claim_C9 (⟨"G", fun _ => false, some 2⟩ : JobExecutionParams) 1 0).2.2

/-- Witness for C10: a failing job with `retries = -1` schedules no
retry. -/
theorem claim_C10_witness :
    (⟨"H", fun _ => false, some (-1)⟩ : JobExecutionParams).retries
      = some (-1) ∧
    (-1 : Int) < 0 ∧
    (⟨"H", fun _ => false, some (-1)⟩ : JobExecutionParams).task 1 = false ∧
    (executeJob (⟨"H", fun _ => false, some (-1)⟩ : JobExecutionParams)
      1).scheduled = none :=
  ⟨rfl, by decide, rfl,
    (claim_C10 (⟨"H", fun _ => false, some (-1)⟩ : JobExecutionParams) 0
      (-1) rfl (by decide) rfl).2.1⟩

/-- Witness for C7: registering the repository's actual registry yields
one registration and one log line per descriptor. -/
theorem claim_C7_witness :
    (registerAllCronJobs cronJobsRegistry []).1.length
      = cronJobsRegistry.length ∧
    (registerAllCronJobs cronJobsRegistry []).2.length
      = cronJobsRegistry.length :=
  ⟨(claim_C7 cronJobsRegistry).2.1, (claim_C7 cronJobsRegistry).2.2.2.2⟩

/-- Witness for C8: after registering the repository's registry twice,
the 1 AM tick fires twice as many callbacks as after registering once. -/
theorem claim_C8_witness :
    ((registerAllCronJobs cronJobsRegistry
        ((registerAllCronJobs cronJobsRegistry []).1)).1.countP
          (fun r => r.schedule == "0 1 * * *")) =
      2 * ((registerAllCronJobs cronJobsRegistry []).1.countP
          (fun r => r.schedule == "0 1 * * *")) :=
  (claim_C8 cronJobsRegistry).2 (fun r => r.schedule == "0 1 * * *")

end CronJobs
